import Mathlib

/-!
Verification of the training-loop orchestration of `train.py`
(autoencoder time-series abnormal detection trainer).

The development shallowly embeds the script's core control flow:

* dataset partitioning (lines 66–75): fixed-seed `random_split` into
  train/validation/test with sizes `int(N*0.8)`, `int(N*0.1)`, remainder,
  bracketed by `torch.manual_seed(0)` and `torch.seed()`;
* checkpoint discovery and restoration (lines 94–115): `glob` + natural
  sort, `torch.load`, field-by-field assignment inside a bare `try/except`;
* the epoch loop (lines 117–160): per-batch training steps, periodic
  logging with an optional validation pass, periodic checkpoint saves, and
  the unconditional final save that reads the leaked loop variables.

Machine floats are modelled as rationals; Python locals that may be
unbound are modelled as `Option`; an exception that escapes is an
`Except.error`.  External collaborators (torch RNG, the model forward
pass, the optimizer update) are modelled as explicit deterministic
functions or as function parameters, matching the interfaces the script
uses.
-/

namespace Train

/-- Model parameters: a mapping from parameter name to (rational-valued)
tensor, as stored in a `state_dict`. -/
abbrev ModelState := List (String × ℚ)

/-- Optimizer statistics, same shape of mapping as the model state. -/
abbrev OptState := List (String × ℚ)

/-- A mini-batch of samples; each sample is a list of rationals
(one fixed-length signal window, flattened). -/
abbrev Batch := List ℚ

/-- A 64-bit linear congruential step: the deterministic pseudo-random
stream behind the torch generator model.  (Torch's actual generator is a
different deterministic function of the seed; every claim proved here
depends only on determinism-given-seed, not on the stream's values.) -/
def lcg (s : Nat) : Nat :=
  (6364136223846793005 * s + 1442695040888963407) % 2 ^ 64

/-- Fisher–Yates selection loop, structurally recursive on a fuel
counter that starts at the list length (so the fallback branch is never
reached). -/
def fyGo : Nat → Nat → List Nat → List Nat
  | 0, _, _ => []
  | _ + 1, _, [] => []
  | fuel + 1, s, x :: xs =>
    let i := s % (x :: xs).length
    (x :: xs).getD i 0 :: fyGo fuel (lcg s) ((x :: xs).eraseIdx i)

/-- Fisher–Yates style shuffle driven by `lcg`: models
`torch.randperm` as invoked by `torch.utils.data.random_split`. -/
def fisherYates (s : Nat) (l : List Nat) : List Nat :=
  fyGo l.length s l

/-- `torch.randperm n` under seed `seed`: a permutation of `[0, n)`. -/
def randperm (seed n : Nat) : List Nat :=
  fisherYates seed (List.range n)

/-- The global torch RNG: the script touches it only through
`torch.manual_seed(0)` and `torch.seed()`. -/
structure TorchRNG where
  state : Nat
deriving DecidableEq

/-- `torch.manual_seed(n)`: reset the generator to the fixed seed `n`. -/
def manualSeed (n : Nat) : TorchRNG := ⟨n⟩

/-- `torch.seed()`: reseed the generator from OS entropy; the entropy word
is a parameter because it is non-deterministic from the program's view. -/
def osSeed (entropy : Nat) : TorchRNG := ⟨entropy⟩

/-- The three subset-index lists produced by `random_split`. -/
structure Partition where
  trainIdx : List Nat
  valIdx : List Nat
  testIdx : List Nat
deriving DecidableEq

/-- Split sizes of `train.py` lines 69–71:
`train_len = int(N * 0.8)`, `val_len = int(N * 0.1)`,
`test_len = N - train_len - val_len`.  (For these arguments Python's
float multiply-and-truncate agrees with exact rational floor, embedded
here as natural division.) -/
def trainLen (n : Nat) : Nat := 4 * n / 5

def valLen (n : Nat) : Nat := n / 10

def testLen (n : Nat) : Nat := n - trainLen n - valLen n

/-- `random_split(all_set, (train_len, val_len, test_len))` under a
generator seeded with `seed`: permute the `n` indices, then cut the
permutation at the requested lengths. -/
def randomSplit (seed n : Nat) : Partition :=
  let perm := randperm seed n
  { trainIdx := perm.take (trainLen n)
    valIdx := (perm.drop (trainLen n)).take (valLen n)
    testIdx := perm.drop (trainLen n + valLen n) }

/-- Lines 72–75 of `train.py` as a transformer of the global RNG:
`torch.manual_seed(0)`; `random_split(...)`; `torch.seed()`.
Returns the produced partition and the RNG state left behind. -/
def partitionStep (g : TorchRNG) (entropy : Nat) (n : Nat) :
    Partition × TorchRNG :=
  let g1 := manualSeed 0
  let p := randomSplit g1.state n
  let g2 := osSeed entropy
  (p, g2)

/-- Errors the partitioner stage can raise, named per the spec's
taxonomy: `invalidDataset` stands for the uncaught exception of
`np.load` on a missing/unreadable source file; `splitMismatch` stands
for torch's `ValueError` when the requested lengths do not sum to the
dataset size. -/
inductive PartError where
  | invalidDataset
  | splitMismatch
deriving DecidableEq

/-- Lines 66–75 of `train.py`: load `normal.npy` (`none` models a source
file that cannot be loaded — `np.load` raises and nothing catches it),
compute the three lengths, seed, split (torch checks the lengths sum to
the dataset size), reseed. -/
def loadAndPartition (disk : Option (List Batch)) (g : TorchRNG)
    (entropy : Nat) : Except PartError (Partition × TorchRNG) :=
  match disk with
  | none => .error .invalidDataset
  | some data =>
    let n := data.length
    if trainLen n + valLen n + testLen n = n then
      .ok (partitionStep g entropy n)
    else
      .error .splitMismatch

theorem length_fyGo (fuel : Nat) :
    ∀ (s : Nat) (l : List Nat), l.length ≤ fuel →
      (fyGo fuel s l).length = l.length := by
  induction fuel with
  | zero =>
    intro s l h
    rw [Nat.le_zero] at h
    rw [List.length_eq_zero] at h
    subst h
    rfl
  | succ fuel ih =>
    intro s l h
    match l with
    | [] => rfl
    | x :: xs =>
      rw [fyGo, List.length_cons, ih]
      · rw [List.length_eraseIdx]
        rw [if_pos (Nat.mod_lt _ (by simp))]
        simp
      · rw [List.length_eraseIdx]
        rw [if_pos (Nat.mod_lt _ (by simp))]
        simp only [List.length_cons] at h ⊢
        omega

theorem length_fisherYates (s : Nat) (l : List Nat) :
    (fisherYates s l).length = l.length :=
  length_fyGo l.length s l (Nat.le_refl _)

theorem length_randperm (seed n : Nat) : (randperm seed n).length = n := by
  simp [randperm, length_fisherYates]

theorem trainLen_add_valLen_le (n : Nat) : trainLen n + valLen n ≤ n := by
  have h1 : 4 * n / 5 * 5 ≤ 4 * n := Nat.div_mul_le_self _ _
  have h2 : n / 10 * 10 ≤ n := Nat.div_mul_le_self _ _
  simp only [trainLen, valLen]
  omega

theorem partition_lengths (seed n : Nat) :
    (randomSplit seed n).trainIdx.length = trainLen n ∧
    (randomSplit seed n).valIdx.length = valLen n ∧
    (randomSplit seed n).testIdx.length = testLen n := by
  have hp := length_randperm seed n
  have hle := trainLen_add_valLen_le n
  refine ⟨?_, ?_, ?_⟩ <;>
    simp [randomSplit, List.length_take, List.length_drop, hp, testLen] <;>
    omega

/-- `int(N * 0.8)` equals the rational floor `⌊0.8 · N⌋`. -/
theorem trainLen_eq_floor (n : Nat) :
    trainLen n = ⌊(0.8 : ℚ) * n⌋₊ := by
  have : (0.8 : ℚ) * n = (4 * n : ℕ) / (5 : ℕ) := by push_cast; ring
  rw [this, Nat.floor_div_nat, Nat.floor_natCast, trainLen]

/-- `int(N * 0.1)` equals the rational floor `⌊0.1 · N⌋`. -/
theorem valLen_eq_floor (n : Nat) :
    valLen n = ⌊(0.1 : ℚ) * n⌋₊ := by
  have : (0.1 : ℚ) * n = (n : ℕ) / (10 : ℕ) := by push_cast; ring
  rw [this, Nat.floor_div_nat, Nat.floor_natCast, valLen]

/-! ### Natural sort (the `natsort.natsorted` call of line 100) -/

/-- A chunk of a natural-sort key: a run of non-digit characters, or the
numeric value of a run of digits. -/
abbrev Chunk := Sum (List Char) Nat

/-- Append one digit to the chunk list under construction (chunks are
accumulated in reverse). -/
def pushDigit (acc : List Chunk) (d : Nat) : List Chunk :=
  match acc with
  | .inr n :: rest => .inr (n * 10 + d) :: rest
  | _ => .inr d :: acc

/-- Append one non-digit character to the chunk list under construction. -/
def pushChar (acc : List Chunk) (c : Char) : List Chunk :=
  match acc with
  | .inl run :: rest => .inl (run ++ [c]) :: rest
  | _ => .inl [c] :: acc

/-- Split a character list into natural-sort chunks: maximal digit runs
become their numeric value, everything else stays text. -/
def natChunks (cs : List Char) : List Chunk :=
  (cs.foldl
    (fun acc c =>
      if c.isDigit then pushDigit acc (c.toNat - 48) else pushChar acc c)
    []).reverse

/-- Strict lexicographic comparison of character runs. -/
def charListLt : List Char → List Char → Bool
  | [], [] => false
  | [], _ :: _ => true
  | _ :: _, [] => false
  | a :: as, b :: bs => if a = b then charListLt as bs else decide (a < b)

/-- Strict comparison of single chunks: numbers compare numerically and
sort before text runs, text runs compare lexicographically. -/
def chunkLt : Chunk → Chunk → Bool
  | .inr n, .inr m => decide (n < m)
  | .inl s, .inl t => charListLt s t
  | .inr _, .inl _ => true
  | .inl _, .inr _ => false

/-- Non-strict lexicographic comparison of chunk lists. -/
def keyLe : List Chunk → List Chunk → Bool
  | [], _ => true
  | _ :: _, [] => false
  | a :: as, b :: bs => if a = b then keyLe as bs else chunkLt a b

/-- `natsort`'s ordering on strings: compare natural-sort keys. -/
def natLe (a b : String) : Bool := keyLe (natChunks a.data) (natChunks b.data)

/-- Plain lexicographic (string) ordering, the ordering natural sort is
contrasted against. -/
def lexLe (a b : String) : Bool := a = b || charListLt a.data b.data

/-- Insert into a list sorted by `le` (insertion sort step). -/
def insertSorted (le : String → String → Bool) (x : String) :
    List String → List String
  | [] => [x]
  | y :: ys => if le x y then x :: y :: ys else y :: insertSorted le x ys

/-- Sort a list of strings by `le` (insertion sort). -/
def sortedBy (le : String → String → Bool) (l : List String) : List String :=
  l.foldr (insertSorted le) []

/-- `natsort.natsorted`: sort strings in natural (numeric-aware) order. -/
def natsorted (l : List String) : List String := sortedBy natLe l

/-- The checkpoint artifact name of line 154:
`model_saved/checkpoint_epoch_<e>.pt`. -/
def ckptName (e : Nat) : String :=
  "model_saved/checkpoint_epoch_" ++ toString e ++ ".pt"

/-! ### Checkpoint data and restoration (lines 94–115) -/

/-- The four-field dictionary a checkpoint file may carry; a `none` field
models a missing key or a value `load_state_dict` rejects. -/
structure CheckpointData where
  model_state_dict : Option ModelState
  optimizer_state_dict : Option OptState
  epoch : Option Nat
  loss : Option ℚ
deriving DecidableEq

/-- A checkpoint file on disk: `none` models an artifact `torch.load`
cannot deserialize. -/
abbrev CkptFile := Option CheckpointData

/-- The checkpoint directory: file name paired with file content. -/
abbrev Disk := List (String × CkptFile)

/-- The locals the resumption routine assigns: the model and optimizer
state (mutated in place by `load_state_dict`) and `continue_epoch`. -/
structure ResumeState where
  modelState : ModelState
  optState : OptState
  continueEpoch : Nat
deriving DecidableEq

/-- Lines 97–100 (`loadLatest` discovery): glob the checkpoint file
names and take the last under natural sort. -/
def latestName (disk : Disk) : String :=
  (natsorted (disk.map (fun f => f.1))).getLast!

/-- Python exceptions the embedded fragments can raise. -/
inductive PyErr where
  | fileNotFound
  | loadError
  | keyOrShapeError
  | nameError
  | zeroDivision
deriving DecidableEq

/-- The body of the `try:` block, lines 96–112: glob the checkpoint
directory, raise if empty, pick the natural-sort-latest file, load it and
assign the four fields one by one.  Returns the locals' values at exit
together with the exception that escaped the block, if any — assignments
made before the raise persist, as in Python. -/
def tryRestoreBody (disk : Disk) (s0 : ResumeState) :
    ResumeState × Option PyErr :=
  let fps := disk.map (fun f => f.1)
  if fps.isEmpty then (s0, some .fileNotFound)
  else
    match disk.lookup (latestName disk) with
    | none => (s0, some .loadError)
    | some none => (s0, some .loadError)
    | some (some c) =>
      match c.model_state_dict with
      | none => (s0, some .keyOrShapeError)
      | some ms =>
        let s1 := { s0 with modelState := ms }
        match c.optimizer_state_dict with
        | none => (s1, some .keyOrShapeError)
        | some os =>
          let s2 := { s1 with optState := os }
          match c.epoch with
          | none => (s2, some .keyOrShapeError)
          | some e =>
            let s3 := { s2 with continueEpoch := e }
            match c.loss with
            | none => (s3, some .keyOrShapeError)
            | some _ => (s3, none)

/-- Lines 95–115: run the `try:` body; the bare `except:` swallows any
exception and logs it; either way the routine falls through to line 115
and training proceeds.  Returns the resulting locals and the log lines. -/
def restore (disk : Disk) (s0 : ResumeState) : ResumeState × List String :=
  match tryRestoreBody disk s0 with
  | (s, some _) =>
    (s, ["load model checkpoint failed",
         "continue training from epoch: " ++ toString s.continueEpoch])
  | (s, none) =>
    (s, ["load checkpoint file",
         "continue training from epoch: " ++ toString s.continueEpoch])

/-! ### The epoch loop (lines 117–160) -/

/-- The external collaborators the loop calls into: the model's forward
pass (returning the decoded output) and the backward/optimizer update. -/
structure Hooks where
  forward : ModelState → Batch → Batch
  update : ModelState → OptState → Batch → ModelState × OptState

/-- `nn.MSELoss()`: mean squared error between prediction and target. -/
def mseLoss (pred target : Batch) : ℚ :=
  (((pred.zip target).map (fun p => (p.1 - p.2) ^ 2)).sum) /
    ((pred.zip target).length : ℚ)

/-- One saved checkpoint: the dictionary of lines 149–154. -/
structure Ckpt where
  epoch : Nat
  loss : ℚ
  model_state_dict : ModelState
  optimizer_state_dict : OptState
deriving DecidableEq

/-- One logged progress record (lines 141–146). -/
structure LogRecord where
  epoch : Nat
  total_step : Nat
  train_loss : ℚ
  val_loss : ℚ
deriving DecidableEq

/-- The loop's mutable locals: model/optimizer state, the Python locals
`loss` and `step` (`none` while still unbound), and the observable
outputs: logged records and saved checkpoints. -/
structure LoopState where
  model : ModelState
  opt : OptState
  loss : Option ℚ
  step : Option Nat
  records : List LogRecord
  saves : List (String × Ckpt)
deriving DecidableEq

/-- Lines 119–126: iterate the shuffled mini-batches; each batch runs a
forward pass, computes the MSE loss, and updates the parameters; `loss`
and `step` retain the values from the last batch (or their previous
values when there is no batch). -/
def runBatchesFrom (hk : Hooks) :
    Nat → List Batch → ModelState → OptState → Option ℚ → Option Nat →
    ModelState × OptState × Option ℚ × Option Nat
  | _, [], m, o, l?, st? => (m, o, l?, st?)
  | i, x :: rest, m, o, _, _ =>
    let decoded := hk.forward m x
    let l := mseLoss decoded x
    let mo := hk.update m o x
    runBatchesFrom hk (i + 1) rest mo.1 mo.2 (some l) (some i)

/-- Command-line configuration fields the core consumes. -/
structure Args where
  epoch : Nat
  log_interval : Nat
  save_interval : Nat
  eval_val : Bool
  continue_training : Bool
deriving DecidableEq

/-- Lines 119–126 as a state update: run every mini-batch, leaving the
updated parameters and the per-epoch `loss`/`step` locals. -/
def batchPhase (hk : Hooks) (tb : List Batch) (s0 : LoopState) : LoopState :=
  let r := runBatchesFrom hk 0 tb s0.model s0.opt s0.loss s0.step
  { s0 with model := r.1, opt := r.2.1, loss := r.2.2.1, step := r.2.2.2 }

/-- Lines 128–146: every `log_interval` epochs, compute the validation
loss (the sentinel `-1` when validation is disabled, otherwise one
full-batch MSE pass) and append a log record.  Reading the unbound
`loss`/`step` raises `nameError`; `e % 0` raises `zeroDivision`. -/
def logPhase (args : Args) (hk : Hooks) (tb : List Batch) (vb : Batch)
    (e : Nat) (s : LoopState) : Except PyErr LoopState :=
  if args.log_interval = 0 then .error .zeroDivision
  else if e % args.log_interval = 0 then
    let v : ℚ :=
      if !args.eval_val then -1
      else mseLoss (hk.forward s.model vb) vb
    match s.loss, s.step with
    | some l, some stp =>
      .ok { s with
        records := s.records ++ [⟨e, e * tb.length + stp, l, v⟩] }
    | _, _ => .error .nameError
  else .ok s

/-- Lines 148–154: every `save_interval` epochs, write a checkpoint
tagged with the current epoch and last observed loss. -/
def savePhase (args : Args) (e : Nat) (s1 : LoopState) :
    Except PyErr LoopState :=
  if args.save_interval = 0 then .error .zeroDivision
  else if e % args.save_interval = 0 then
    match s1.loss with
    | some l =>
      .ok { s1 with
        saves := s1.saves ++ [(ckptName e, ⟨e, l, s1.model, s1.opt⟩)] }
    | none => .error .nameError
  else .ok s1

/-- One iteration of the epoch loop, lines 119–154: the batch loop, the
periodic log and the periodic save. -/
def epochStep (args : Args) (hk : Hooks) (tb : List Batch) (vb : Batch)
    (e : Nat) (s0 : LoopState) : Except PyErr LoopState :=
  match logPhase args hk tb vb e (batchPhase hk tb s0) with
  | .error err => .error err
  | .ok s1 => savePhase args e s1

/-- Run the epoch loop over the given epoch indices. -/
def runEpochs (args : Args) (hk : Hooks) (tb : List Batch) (vb : Batch) :
    List Nat → LoopState → Except PyErr LoopState
  | [], s => .ok s
  | e :: rest, s =>
    match epochStep args hk tb vb e s with
    | .error err => .error err
    | .ok s1 => runEpochs args hk tb vb rest s1

/-- The epoch indices `range(continue_epoch, args.epoch)` of line 118. -/
def epochsRun (args : Args) (start : Nat) : List Nat :=
  List.range' start (args.epoch - start)

/-- The run's observable outcome when it terminates normally. -/
structure RunResult where
  records : List LogRecord
  saves : List (String × Ckpt)
deriving DecidableEq

/-- The loop locals before the first epoch: `loss` and `step` unbound. -/
def initLoopState (m0 : ModelState) (o0 : OptState) : LoopState :=
  ⟨m0, o0, none, none, [], []⟩

/-- Lines 155–160: the unconditional final `torch.save`.  It reads the
leaked loop variable `epoch` (the last index iterated — unbound when the
loop body never ran) and the local `loss`; reading either unbound raises
`nameError`. -/
def finalSave (args : Args) (startEpoch : Nat) (s : LoopState) :
    Except PyErr RunResult :=
  match (epochsRun args startEpoch).getLast?, s.loss with
  | some eLast, some l =>
    .ok ⟨s.records, s.saves ++ [(ckptName eLast, ⟨eLast, l, s.model, s.opt⟩)]⟩
  | _, _ => .error .nameError

/-- Lines 117–160: the epoch loop followed by the unconditional final
`torch.save`. -/
def runTraining (args : Args) (hk : Hooks) (tb : List Batch) (vb : Batch)
    (m0 : ModelState) (o0 : OptState) (startEpoch : Nat) :
    Except PyErr RunResult :=
  match runEpochs args hk tb vb (epochsRun args startEpoch)
      (initLoopState m0 o0) with
  | .error err => .error err
  | .ok s => finalSave args startEpoch s

/-- Lines 94–118 glued together: optional restoration, then the loop
starting at `continue_epoch`. -/
def mainResume (args : Args) (hk : Hooks) (tb : List Batch) (vb : Batch)
    (m0 : ModelState) (o0 : OptState) (disk : Disk) : Except PyErr RunResult :=
  let s0 : ResumeState := ⟨m0, o0, 0⟩
  let s1 := if args.continue_training then (restore disk s0).1 else s0
  runTraining args hk tb vb s1.modelState s1.optState s1.continueEpoch

/-! ### Claims about the partitioner -/

/-- C4: partitioning the same `N`-sample dataset twice under the fixed
seed yields identical index assignments regardless of the incoming RNG
state and of the OS entropy (two-run determinism); the generator is
reset to the fixed seed `0` immediately before the split (the split is a
function of that seed alone), and immediately afterwards it is restored
to entropy-derived (non-deterministic) seeding, so only the partition —
not subsequent shuffling — is reproducible. -/
theorem c4_partition_two_run_deterministic (g g' : TorchRNG)
    (entropy entropy' n : Nat) :
    (partitionStep g entropy n).1 = (partitionStep g' entropy' n).1 ∧
    (partitionStep g entropy n).1 = randomSplit (manualSeed 0).state n ∧
    (partitionStep g entropy n).2 = osSeed entropy := by
  exact ⟨rfl, rfl, rfl⟩

/-- C5: the partition assigns `⌊0.8·N⌋` samples to train, `⌊0.1·N⌋` to
validation, the remainder to test, and the three sizes sum to `N`. -/
theorem c5_partition_sizes (seed n : Nat) :
    (randomSplit seed n).trainIdx.length = ⌊(0.8 : ℚ) * n⌋₊ ∧
    (randomSplit seed n).valIdx.length = ⌊(0.1 : ℚ) * n⌋₊ ∧
    (randomSplit seed n).testIdx.length =
      n - (randomSplit seed n).trainIdx.length -
        (randomSplit seed n).valIdx.length ∧
    (randomSplit seed n).trainIdx.length + (randomSplit seed n).valIdx.length +
      (randomSplit seed n).testIdx.length = n := by
  obtain ⟨h1, h2, h3⟩ := partition_lengths seed n
  have hle := trainLen_add_valLen_le n
  have hf1 := trainLen_eq_floor n
  have hf2 := valLen_eq_floor n
  refine ⟨by rw [h1, hf1], by rw [h2, hf2], ?_, ?_⟩
  · rw [h1, h2, h3]
    simp [testLen]
  · rw [h1, h2, h3]
    simp only [testLen]
    omega

/-- C6 counterexample: for a dataset of size `N = 0` the partitioner does
NOT fail — the split succeeds and produces three empty subsets (the
`InvalidDataset`-style failure claimed for `N = 0` does not exist in the
code; the run only dies later, outside the partitioner). -/
theorem c6_counterexample :
    loadAndPartition (some []) ⟨123⟩ 77 =
      .ok (⟨[], [], []⟩, osSeed 77) := by
  rfl

/-- C6 amended: the partitioner fails fatally (spec name
`InvalidDataset`) exactly when the dataset cannot be loaded from the
source path; for every loadable dataset — including the empty one — the
split itself succeeds, because the three computed lengths always sum to
the dataset size. -/
theorem c6_amended_load_failure_only (g : TorchRNG) (entropy : Nat) :
    loadAndPartition none g entropy = .error .invalidDataset ∧
    ∀ data : List Batch, loadAndPartition (some data) g entropy =
      .ok (partitionStep g entropy data.length) := by
  refine ⟨rfl, fun data => ?_⟩
  have hle := trainLen_add_valLen_le data.length
  simp only [loadAndPartition]
  rw [if_pos]
  simp only [testLen]
  omega

/-! ### Claim about checkpoint discovery (C7) -/

/-- The six possible orders `glob` can list the three checkpoint files
tagged with epochs 5, 10 and 100. -/
def sixOrders : List (List String) :=
  [[ckptName 5, ckptName 10, ckptName 100],
   [ckptName 5, ckptName 100, ckptName 10],
   [ckptName 10, ckptName 5, ckptName 100],
   [ckptName 10, ckptName 100, ckptName 5],
   [ckptName 100, ckptName 5, ckptName 10],
   [ckptName 100, ckptName 10, ckptName 5]]

/-- C7: however `glob` orders the checkpoint files tagged with epochs
{5, 10, 100}, natural sort places the epoch-100 artifact last, so the
restoration routine picks it; plain lexicographic string sort would
instead place the epoch-5 artifact last. -/
theorem c7_natural_sort_latest (fps : List String) (h : fps ∈ sixOrders) :
    (natsorted fps).getLast? = some (ckptName 100) ∧
    (sortedBy lexLe fps).getLast? = some (ckptName 5) := by
  revert fps h
  decide

/-! ### Claims about restoration (C1, C2, C10) -/

/-- When the natural-sort-latest artifact deserializes and carries all
four well-formed fields, the `try:` body completes with no exception and
the locals hold exactly the checkpoint's contents. -/
theorem tryRestoreBody_success (disk : Disk) (s0 : ResumeState)
    (c : CheckpointData) (ms os : ModelState) (E : Nat) (lv : ℚ)
    (hlook : disk.lookup (latestName disk) = some (some c))
    (hms : c.model_state_dict = some ms)
    (hos : c.optimizer_state_dict = some os)
    (hep : c.epoch = some E) (hl : c.loss = some lv) :
    tryRestoreBody disk s0 = (⟨ms, os, E⟩, none) := by
  obtain ⟨d, ds, rfl⟩ : ∃ d ds, disk = d :: ds := by
    cases disk with
    | nil => simp [List.lookup] at hlook
    | cons d ds => exact ⟨d, ds, rfl⟩
  simp only [tryRestoreBody, List.map_cons, List.isEmpty_cons,
    Bool.false_eq_true, if_false, hlook, hms, hos, hep, hl]

/-- Whatever happens inside the `try:` body, the resulting
`continue_epoch` is either the initial one or the epoch field of the
latest artifact's contents (read before the failure, if any). -/
theorem tryRestoreBody_epoch_cases (disk : Disk) (s0 : ResumeState) :
    (tryRestoreBody disk s0).1.continueEpoch = s0.continueEpoch ∨
    ∃ c, disk.lookup (latestName disk) = some (some c) ∧
      c.epoch = some (tryRestoreBody disk s0).1.continueEpoch := by
  cases hemp : (disk.map (fun f => f.1)).isEmpty with
  | true => left; simp [tryRestoreBody, hemp]
  | false =>
    rcases hlook : disk.lookup (latestName disk) with _ | (_ | c)
    · left; simp [tryRestoreBody, hemp, hlook]
    · left; simp [tryRestoreBody, hemp, hlook]
    · cases hms : c.model_state_dict with
      | none => left; simp [tryRestoreBody, hemp, hlook, hms]
      | some ms =>
        cases hos : c.optimizer_state_dict with
        | none => left; simp [tryRestoreBody, hemp, hlook, hms, hos]
        | some os =>
          cases hep : c.epoch with
          | none => left; simp [tryRestoreBody, hemp, hlook, hms, hos, hep]
          | some e =>
            cases hl : c.loss with
            | none =>
              right
              refine ⟨c, rfl, ?_⟩
              simp [tryRestoreBody, hemp, hlook, hms, hos, hep, hl]
            | some lv =>
              right
              refine ⟨c, rfl, ?_⟩
              simp [tryRestoreBody, hemp, hlook, hms, hos, hep, hl]

/-- The locals after lines 95–115 are those the `try:` body left behind,
whether or not an exception was swallowed. -/
theorem restore_fst (disk : Disk) (s0 : ResumeState) :
    (restore disk s0).1 = (tryRestoreBody disk s0).1 := by
  unfold restore
  rcases h : tryRestoreBody disk s0 with ⟨s, e⟩
  cases e <;> simp

/-- C1: when resumption is requested and the latest checkpoint — saved
at epoch `E` — restores successfully, the loop's epoch counter starts at
exactly `E` (not `E + 1`): `E` is the head of the iterated epoch indices
and is executed again. -/
theorem c1_resume_reruns_stored_epoch (disk : Disk) (s0 : ResumeState)
    (args : Args) (c : CheckpointData) (ms os : ModelState) (E : Nat) (lv : ℚ)
    (hlook : disk.lookup (latestName disk) = some (some c))
    (hms : c.model_state_dict = some ms)
    (hos : c.optimizer_state_dict = some os)
    (hep : c.epoch = some E) (hl : c.loss = some lv)
    (hlt : E < args.epoch) :
    (tryRestoreBody disk s0).2 = none ∧
    (restore disk s0).1.continueEpoch = E ∧
    (epochsRun args E).head? = some E ∧
    E ∈ epochsRun args E := by
  have h := tryRestoreBody_success disk s0 c ms os E lv hlook hms hos hep hl
  obtain ⟨k, hk⟩ : ∃ k, args.epoch - E = k + 1 := ⟨args.epoch - E - 1, by omega⟩
  refine ⟨by rw [h], by rw [restore_fst, h], ?_, ?_⟩ <;>
    simp [epochsRun, hk, List.range']

/-- C1 witness: a singleton checkpoint directory holding a well-formed
epoch-1 checkpoint, three configured epochs. -/
theorem c1_resume_reruns_stored_epoch_witness :
    (tryRestoreBody [(ckptName 1, some ⟨some [("w", 1)], some [("m", 1)],
        some 1, some 2⟩)] ⟨[], [], 0⟩).2 = none ∧
    (restore [(ckptName 1, some ⟨some [("w", 1)], some [("m", 1)],
        some 1, some 2⟩)] ⟨[], [], 0⟩).1.continueEpoch = 1 ∧
    (epochsRun ⟨3, 1, 1, true, true⟩ 1).head? = some 1 ∧
    1 ∈ epochsRun ⟨3, 1, 1, true, true⟩ 1 :=
  c1_resume_reruns_stored_epoch
    [(ckptName 1, some ⟨some [("w", 1)], some [("m", 1)], some 1, some 2⟩)]
    ⟨[], [], 0⟩ ⟨3, 1, 1, true, true⟩
    ⟨some [("w", 1)], some [("m", 1)], some 1, some 2⟩
    [("w", 1)] [("m", 1)] 1 2 (by rfl) rfl rfl rfl rfl (by decide)

/-- A checkpoint whose model state, optimizer state and epoch field are
fine but whose `loss` entry is missing: reading `checkpoint['loss']`
raises after `continue_epoch` has already been assigned. -/
def c2ckpt : CheckpointData :=
  ⟨some [("w", 1)], some [("m", 2)], some 5, none⟩

/-- A checkpoint directory holding only `c2ckpt` under the epoch-5 name. -/
def c2disk : Disk := [(ckptName 5, some c2ckpt)]

/-- The resumption locals before line 94: fresh model and optimizer,
`continue_epoch = 0`. -/
def initResume : ResumeState := ⟨[], [], 0⟩

/-- C2 counterexample: restoring `c2disk` fails (the `loss` field is
missing), the failure is caught — yet the loop does NOT begin at epoch 0:
`continue_epoch` keeps the value 5 read from the checkpoint before the
failure, refuting the claim that every recovered restoration failure
restarts training at epoch 0. -/
theorem c2_counterexample :
    (tryRestoreBody c2disk initResume).2 = some .keyOrShapeError ∧
    (restore c2disk initResume).1.continueEpoch = 5 := by
  exact ⟨rfl, rfl⟩

/-- C2 amended: every restoration failure is caught at the boundary of
the resumption routine and logged, and the run proceeds into the loop
(never terminating on a restoration failure); the loop begins at epoch 0
*unless* the checkpoint's epoch field had already been read when the
failure hit, in which case it begins at that stored epoch. -/
theorem c2_amended_caught_and_logged (args : Args) (hk : Hooks)
    (tb : List Batch) (vb : Batch) (m0 : ModelState) (o0 : OptState)
    (disk : Disk) (hct : args.continue_training = true) :
    mainResume args hk tb vb m0 o0 disk =
      runTraining args hk tb vb (restore disk ⟨m0, o0, 0⟩).1.modelState
        (restore disk ⟨m0, o0, 0⟩).1.optState
        (restore disk ⟨m0, o0, 0⟩).1.continueEpoch ∧
    ((tryRestoreBody disk ⟨m0, o0, 0⟩).2.isSome = true →
      "load model checkpoint failed" ∈ (restore disk ⟨m0, o0, 0⟩).2) ∧
    ((restore disk ⟨m0, o0, 0⟩).1.continueEpoch = 0 ∨
      ∃ c, disk.lookup (latestName disk) = some (some c) ∧
        c.epoch = some (restore disk ⟨m0, o0, 0⟩).1.continueEpoch) := by
  refine ⟨by simp [mainResume, hct], ?_, ?_⟩
  · intro hsome
    unfold restore
    rcases h : tryRestoreBody disk ⟨m0, o0, 0⟩ with ⟨s, e⟩
    cases e with
    | none => rw [h] at hsome; simp at hsome
    | some err => simp
  · rw [restore_fst]
    exact tryRestoreBody_epoch_cases disk ⟨m0, o0, 0⟩

/-- C2 amended witness: instantiated on the `c2disk` directory with a
concrete configuration. -/
theorem c2_amended_caught_and_logged_witness :
    mainResume ⟨3, 1, 1, true, true⟩ ⟨fun _ x => x, fun m o _ => (m, o)⟩
      [[1]] [1] [] [] c2disk =
      runTraining ⟨3, 1, 1, true, true⟩ ⟨fun _ x => x, fun m o _ => (m, o)⟩
        [[1]] [1] (restore c2disk ⟨[], [], 0⟩).1.modelState
        (restore c2disk ⟨[], [], 0⟩).1.optState
        (restore c2disk ⟨[], [], 0⟩).1.continueEpoch ∧
    ((tryRestoreBody c2disk ⟨[], [], 0⟩).2.isSome = true →
      "load model checkpoint failed" ∈ (restore c2disk ⟨[], [], 0⟩).2) ∧
    ((restore c2disk ⟨[], [], 0⟩).1.continueEpoch = 0 ∨
      ∃ c, c2disk.lookup (latestName c2disk) = some (some c) ∧
        c.epoch = some (restore c2disk ⟨[], [], 0⟩).1.continueEpoch) :=
  c2_amended_caught_and_logged ⟨3, 1, 1, true, true⟩
    ⟨fun _ x => x, fun m o _ => (m, o)⟩ [[1]] [1] [] [] c2disk rfl

/-- A checkpoint whose model state deserializes but whose optimizer
state is missing/malformed. -/
def c10ckpt : CheckpointData := ⟨some [("w", 42)], none, some 7, some 1⟩

/-- A checkpoint directory holding only `c10ckpt`. -/
def c10disk : Disk := [(ckptName 7, some c10ckpt)]

/-- Pre-restoration locals with a distinguishable model parameter. -/
def c10init : ResumeState := ⟨[("w", 0)], [("m", 0)], 0⟩

/-- C10: restoration is not atomic — on `c10disk` the model state loads
and then the optimizer-state load fails; the run falls back to epoch 0,
but the model parameters keep the checkpoint's partially restored values
instead of being rolled back to their pre-restoration values. -/
theorem c10_restore_not_atomic :
    (tryRestoreBody c10disk c10init).2 = some .keyOrShapeError ∧
    (restore c10disk c10init).1.continueEpoch = 0 ∧
    (restore c10disk c10init).1.modelState = [("w", 42)] ∧
    c10init.modelState ≠ [("w", 42)] := by
  refine ⟨rfl, rfl, rfl, by decide⟩

/-- C7 witness: the property instantiated at one concrete `glob` order. -/
theorem c7_natural_sort_latest_witness :
    (natsorted [ckptName 100, ckptName 5, ckptName 10]).getLast? =
      some (ckptName 100) ∧
    (sortedBy lexLe [ckptName 100, ckptName 5, ckptName 10]).getLast? =
      some (ckptName 5) :=
  c7_natural_sort_latest [ckptName 100, ckptName 5, ckptName 10] (by decide)

/-! ### Claims about the epoch loop (C3, C8, C9) -/

/-- Trivial collaborator instances for concrete runs: the forward pass
echoes its input and the update leaves the parameters unchanged. -/
def idHooks : Hooks := ⟨fun _ x => x, fun m o _ => (m, o)⟩

theorem range'_getLast (k : Nat) :
    ∀ s : Nat, (List.range' s (k + 1)).getLast? = some (s + k) := by
  induction k with
  | zero => intro s; rfl
  | succ k ih =>
    intro s
    have h1 : List.range' s (k + 2) = s :: List.range' (s + 1) (k + 1) := rfl
    rw [h1, List.getLast?_cons, ih (s + 1)]
    simp
    omega

theorem epochsRun_getLast (args : Args) (start e : Nat)
    (h : (epochsRun args start).getLast? = some e) : e = args.epoch - 1 := by
  unfold epochsRun at h
  rcases hn : args.epoch - start with _ | k
  · rw [hn] at h; simp [List.range'] at h
  · rw [hn, range'_getLast] at h
    injection h with h
    omega

/-- A concrete one-epoch run with validation on and `save_interval = 1`:
epoch 0 triggers the interval save and the unconditional final save
duplicates it. -/
theorem runTraining_concrete_dup :
    runTraining ⟨1, 1, 1, true, false⟩ idHooks [[1]] [1] [] [] 0 =
      .ok ⟨[⟨0, 0, 0, 0⟩],
        [(ckptName 0, ⟨0, 0, [], []⟩), (ckptName 0, ⟨0, 0, [], []⟩)]⟩ := by
  norm_num [runTraining, runEpochs, epochStep, logPhase, savePhase,
    batchPhase, runBatchesFrom, mseLoss, epochsRun, initLoopState, idHooks,
    List.range', finalSave]

/-- The same concrete run with validation disabled: the single logged
record carries the sentinel validation loss `-1`. -/
theorem runTraining_concrete_noval :
    runTraining ⟨1, 1, 1, false, false⟩ idHooks [[1]] [1] [] [] 0 =
      .ok ⟨[⟨0, 0, 0, -1⟩],
        [(ckptName 0, ⟨0, 0, [], []⟩), (ckptName 0, ⟨0, 0, [], []⟩)]⟩ := by
  norm_num [runTraining, runEpochs, epochStep, logPhase, savePhase,
    batchPhase, runBatchesFrom, mseLoss, epochsRun, initLoopState, idHooks,
    List.range', finalSave]

/-- C3: whenever the run terminates normally (the configured final epoch
completed), the very last checkpoint written is tagged with the final
epoch `args.epoch - 1` — unconditionally, with no hypothesis on the
save-interval schedule; and concretely, when the final epoch also
satisfies the save-interval condition the same artifact name is written
twice (the interval save plus the duplicate unconditional final save). -/
theorem c3_unconditional_final_save (args : Args) (hk : Hooks)
    (tb : List Batch) (vb : Batch) (m0 : ModelState) (o0 : OptState)
    (start : Nat) (r : RunResult)
    (h : runTraining args hk tb vb m0 o0 start = .ok r) :
    (∃ c : Ckpt, r.saves.getLast? = some (ckptName (args.epoch - 1), c) ∧
      c.epoch = args.epoch - 1) ∧
    (runTraining ⟨1, 1, 1, true, false⟩ idHooks [[1]] [1] [] [] 0).map
      (fun r2 => r2.saves.map (fun p => p.1)) =
      .ok [ckptName 0, ckptName 0] := by
  refine ⟨?_, by rw [runTraining_concrete_dup]; rfl⟩
  unfold runTraining at h
  cases hrun : runEpochs args hk tb vb (epochsRun args start)
      (initLoopState m0 o0) with
  | error err => rw [hrun] at h; nomatch h
  | ok s =>
    rw [hrun] at h
    dsimp only at h
    unfold finalSave at h
    cases hg : (epochsRun args start).getLast? with
    | none =>
      rw [hg] at h
      cases hsl : s.loss <;> rw [hsl] at h <;> nomatch h
    | some eL =>
      rw [hg] at h
      cases hsl : s.loss with
      | none => rw [hsl] at h; nomatch h
      | some l =>
        rw [hsl] at h
        injection h with h
        subst h
        have he := epochsRun_getLast args start eL hg
        subst he
        exact ⟨⟨args.epoch - 1, l, s.model, s.opt⟩,
          by simp [List.getLast?_concat], rfl⟩

/-- C3 witness: a one-epoch run with `save_interval = 1`; the final save
duplicates the interval save of epoch 0. -/
theorem c3_unconditional_final_save_witness :
    (∃ c : Ckpt,
      (RunResult.mk [⟨0, 0, 0, 0⟩]
        [(ckptName 0, ⟨0, 0, [], []⟩), (ckptName 0, ⟨0, 0, [], []⟩)]
        ).saves.getLast? =
        some (ckptName ((⟨1, 1, 1, true, false⟩ : Args).epoch - 1), c) ∧
      c.epoch = (⟨1, 1, 1, true, false⟩ : Args).epoch - 1) ∧
    (runTraining ⟨1, 1, 1, true, false⟩ idHooks [[1]] [1] [] [] 0).map
      (fun r2 => r2.saves.map (fun p => p.1)) =
      .ok [ckptName 0, ckptName 0] :=
  c3_unconditional_final_save ⟨1, 1, 1, true, false⟩ idHooks [[1]] [1] [] [] 0
    (RunResult.mk [⟨0, 0, 0, 0⟩]
      [(ckptName 0, ⟨0, 0, [], []⟩), (ckptName 0, ⟨0, 0, [], []⟩)])
    runTraining_concrete_dup

/-- C9: when the restored epoch is at least the configured epoch count
(or the count is zero), the loop body never runs, the Python locals
`epoch` and `loss` are never bound, and the unconditional final save
dies with a `NameError` instead of writing a checkpoint. -/
theorem c9_empty_loop_final_save_fails (args : Args) (hk : Hooks)
    (tb : List Batch) (vb : Batch) (m0 : ModelState) (o0 : OptState)
    (start : Nat) (h : args.epoch ≤ start) :
    runTraining args hk tb vb m0 o0 start = .error .nameError := by
  have hz : args.epoch - start = 0 := by omega
  simp [runTraining, epochsRun, hz, runEpochs, finalSave, initLoopState]

/-- C9 witness: zero configured epochs. -/
theorem c9_empty_loop_final_save_fails_witness :
    runTraining ⟨0, 1, 1, true, false⟩ idHooks [[1]] [1] [] [] 0 =
      .error .nameError :=
  c9_empty_loop_final_save_fails ⟨0, 1, 1, true, false⟩ idHooks [[1]] [1]
    [] [] 0 (by decide)

/-- The reconstruction loss is a mean of squares, hence never negative —
so the sentinel `-1` can never arise from an actual validation pass. -/
theorem mseLoss_nonneg (pred target : Batch) : 0 ≤ mseLoss pred target := by
  unfold mseLoss
  apply div_nonneg
  · apply List.sum_nonneg
    intro x hx
    simp only [List.mem_map] at hx
    obtain ⟨p, hp, rfl⟩ := hx
    positivity
  · positivity

theorem logPhase_sentinel (args : Args) (hk : Hooks) (tb : List Batch)
    (vb : Batch) (e : Nat) (s s1 : LoopState)
    (hv : args.eval_val = false)
    (hrec : ∀ q ∈ s.records, q.val_loss = -1)
    (h : logPhase args hk tb vb e s = .ok s1) :
    ∀ q ∈ s1.records, q.val_loss = -1 := by
  unfold logPhase at h
  split at h
  · nomatch h
  · split at h
    · simp only [hv, Bool.not_false, if_true] at h
      split at h
      · injection h with h
        subst h
        intro q hq
        simp only [List.mem_append, List.mem_singleton] at hq
        rcases hq with hq | hq
        · exact hrec q hq
        · subst hq; rfl
      · nomatch h
    · injection h with h
      subst h
      exact hrec

theorem savePhase_records (args : Args) (e : Nat) (s1 s2 : LoopState)
    (h : savePhase args e s1 = .ok s2) : s2.records = s1.records := by
  unfold savePhase at h
  split at h
  · nomatch h
  · split at h
    · split at h
      · injection h with h; subst h; rfl
      · nomatch h
    · injection h with h; subst h; rfl

theorem epochStep_sentinel (args : Args) (hk : Hooks) (tb : List Batch)
    (vb : Batch) (e : Nat) (s0 s2 : LoopState)
    (hv : args.eval_val = false)
    (hrec : ∀ q ∈ s0.records, q.val_loss = -1)
    (h : epochStep args hk tb vb e s0 = .ok s2) :
    ∀ q ∈ s2.records, q.val_loss = -1 := by
  unfold epochStep at h
  cases hlp : logPhase args hk tb vb e (batchPhase hk tb s0) with
  | error err => rw [hlp] at h; nomatch h
  | ok s1 =>
    rw [hlp] at h
    have h1 : ∀ q ∈ s1.records, q.val_loss = -1 :=
      logPhase_sentinel args hk tb vb e (batchPhase hk tb s0) s1 hv hrec hlp
    rw [savePhase_records args e s1 s2 h]
    exact h1

theorem runEpochs_sentinel (args : Args) (hk : Hooks) (tb : List Batch)
    (vb : Batch) (hv : args.eval_val = false) :
    ∀ (es : List Nat) (s s1 : LoopState),
      (∀ q ∈ s.records, q.val_loss = -1) →
      runEpochs args hk tb vb es s = .ok s1 →
      ∀ q ∈ s1.records, q.val_loss = -1 := by
  intro es
  induction es with
  | nil =>
    intro s s1 hs h
    injection h with h
    subst h
    exact hs
  | cons e rest ih =>
    intro s s1 hs h
    unfold runEpochs at h
    cases hstep : epochStep args hk tb vb e s with
    | error err => rw [hstep] at h; nomatch h
    | ok s' =>
      rw [hstep] at h
      exact ih s' s1 (epochStep_sentinel args hk tb vb e s s' hv hs hstep) h

/-- C8: when validation is disabled, every logged record carries the
sentinel validation loss `-1` ("not computed"); and no actual validation
pass could produce it, since the MSE loss is never negative. -/
theorem c8_disabled_validation_yields_sentinel (args : Args) (hk : Hooks)
    (tb : List Batch) (vb : Batch) (m0 : ModelState) (o0 : OptState)
    (start : Nat) (r : RunResult)
    (hv : args.eval_val = false)
    (h : runTraining args hk tb vb m0 o0 start = .ok r) :
    (∀ q ∈ r.records, q.val_loss = -1) ∧
    (∀ pred target : Batch, 0 ≤ mseLoss pred target) := by
  refine ⟨?_, fun p t => mseLoss_nonneg p t⟩
  unfold runTraining at h
  cases hrun : runEpochs args hk tb vb (epochsRun args start)
      (initLoopState m0 o0) with
  | error err => rw [hrun] at h; nomatch h
  | ok s =>
    rw [hrun] at h
    dsimp only at h
    unfold finalSave at h
    have hs : ∀ q ∈ s.records, q.val_loss = -1 :=
      runEpochs_sentinel args hk tb vb hv (epochsRun args start)
        (initLoopState m0 o0) s (by simp [initLoopState]) hrun
    cases hg : (epochsRun args start).getLast? with
    | none =>
      rw [hg] at h
      cases hsl : s.loss <;> rw [hsl] at h <;> nomatch h
    | some eL =>
      rw [hg] at h
      cases hsl : s.loss with
      | none => rw [hsl] at h; nomatch h
      | some l =>
        rw [hsl] at h
        injection h with h
        subst h
        exact hs

/-- C8 witness: a one-epoch run with validation disabled; the single
logged record carries validation loss `-1`. -/
theorem c8_disabled_validation_yields_sentinel_witness :
    (∀ q ∈ (RunResult.mk [⟨0, 0, 0, -1⟩]
        [(ckptName 0, ⟨0, 0, [], []⟩), (ckptName 0, ⟨0, 0, [], []⟩)]).records,
      q.val_loss = -1) ∧
    (∀ pred target : Batch, 0 ≤ mseLoss pred target) :=
  c8_disabled_validation_yields_sentinel ⟨1, 1, 1, false, false⟩ idHooks
    [[1]] [1] [] [] 0
    (RunResult.mk [⟨0, 0, 0, -1⟩]
      [(ckptName 0, ⟨0, 0, [], []⟩), (ckptName 0, ⟨0, 0, [], []⟩)])
    rfl runTraining_concrete_noval

end Train
